import Mathlib

/-!
Shallow embedding of the live-view reconciliation engine of the taro CLI
(`src/runtools/taro/cmd/live.py`, class `LiveView`, together with the live
selector `src/runtools/taro/tui/selector.py`, class `_LiveSelectorApp`).

The engine keeps three partitions keyed by instance identity — active runs,
recently ended runs retained for display, and active runs missing from the
latest poll — and mutates them from two inputs: asynchronous events
(`_process_event`) and periodic authoritative polls (`_refresh_active_runs`),
with time-based eviction of ended entries (`_prune_ended`).

External collaborator data (the `runtools.runcore` library, which is not part
of this repository) is modelled opaquely: a run snapshot is its composite
identity plus the two fields this repository's code actually reads
(`lifecycle.is_ended` in the selector) and an opaque payload standing for all
presentation fields; monotonic clock readings are integers passed explicitly
to each operation.
-/

/-- Composite instance identity `(job_id, run_id)` with structural equality
(`runtools.runcore.job.InstanceID`, consumed opaquely by this repository). -/
structure InstanceID where
  job_id : String
  run_id : String
deriving DecidableEq

/-- Run stage enum from `runtools.runcore.run.Stage`. -/
inductive Stage where
  | CREATED
  | RUNNING
  | ENDED
deriving DecidableEq

/-- A job-run snapshot (`runtools.runcore.job.JobRun`), modelled by its
identity, the `lifecycle.is_ended` flag read by the selector, and an opaque
payload standing for every presentation field the engine passes through. -/
structure JobRun where
  instance_id : InstanceID
  lifecycleEnded : Bool
  payload : Nat
deriving DecidableEq

/-- Events delivered by the connector's notification API.  The Python code
distinguishes them by duck typing: phase events (`InstancePhaseEvent`) carry a
run snapshot plus the root-phase flag and the new stage, lifecycle events carry
a run snapshot, and output events carry no run snapshot at all. -/
inductive Event where
  | phase (job_run : JobRun) (is_root_phase : Bool) (new_stage : Stage)
  | lifecycle (job_run : JobRun)
  | output
deriving DecidableEq

/-- `getattr(event, 'job_run', None)`. -/
def Event.jobRun : Event → Option JobRun
  | .phase r _ _ => some r
  | .lifecycle r => some r
  | .output => none

/-- `isinstance(event, InstancePhaseEvent) and event.is_root_phase and
event.new_stage == Stage.ENDED`. -/
def Event.isRootEnded : Event → Bool
  | .phase _ root st => root && st == Stage.ENDED
  | .lifecycle _ => false
  | .output => false

/-- `ENDED_RETENTION_SECONDS = 10` in `live.py`. -/
def ENDED_RETENTION_SECONDS : Int := 10

/-- `MISSING_GRACE_SECONDS = 5` in `live.py`. -/
def MISSING_GRACE_SECONDS : Int := 5

/-- `POLL_INTERVAL_SECONDS = 10` in `live.py`. -/
def POLL_INTERVAL_SECONDS : Int := 10

/-- The mutable state of `LiveView`: the three partitions `_active_runs`,
`_ended_runs`, `_missing_runs` (Python dicts, modelled as partial maps) and
the `_last_poll` monotonic timestamp. -/
@[ext]
structure Store where
  active : InstanceID → Option JobRun
  ended : InstanceID → Option (JobRun × Int)
  missing : InstanceID → Option Int
  last_poll : Int

/-- The freshly constructed view state: all three dicts empty, `_last_poll = 0`. -/
def emptyStore : Store :=
  { active := fun _ => none, ended := fun _ => none, missing := fun _ => none, last_poll := 0 }

/-- `if self._run_match and not self._run_match(job_run)` — the optional
caller-supplied filter criteria rejects the run. -/
def matchRejects (run_match : Option (JobRun → Bool)) (jr : JobRun) : Bool :=
  match run_match with
  | some p => !(p jr)
  | none => false

/-- One dict assignment `polled[run.instance_id] = run` of the comprehension
`{run.instance_id: run for run in ...}`. -/
def pollIns (m : InstanceID → Option JobRun) (r : JobRun) : InstanceID → Option JobRun :=
  fun i => if i = r.instance_id then some r else m i

/-- The keyed poll result `polled = {run.instance_id: run for run in
self._conn.get_active_runs(self._run_match)}` — later list entries overwrite
earlier ones, exactly as in the dict comprehension. -/
def pollMap (runs : List JobRun) : InstanceID → Option JobRun :=
  runs.foldl pollIns (fun _ => none)

/-- First loop of `_refresh_active_runs`: for every polled id, upsert the
snapshot into `_active_runs` and drop any `_missing_runs` entry for it. -/
def pollUpsert (P : InstanceID → Option JobRun) (s : Store) : Store :=
  { s with
    active := fun i => match P i with | some r => some r | none => s.active i
    missing := fun i => if (P i).isSome then none else s.missing i }

/-- Second loop of `_refresh_active_runs`: every id still in `_active_runs`
but absent from the poll and not yet marked missing gets
`_missing_runs[iid] = self._last_poll`. -/
def markMissing (P : InstanceID → Option JobRun) (t : Int) (s : Store) : Store :=
  { s with
    missing := fun i =>
      if (s.active i).isSome && (P i).isNone && (s.missing i).isNone then some t
      else s.missing i }

/-- Eviction test of the third loop: `self._last_poll - missing_since >=
MISSING_GRACE_SECONDS`. -/
def gracePassed (s : Store) (t : Int) (i : InstanceID) : Bool :=
  match s.missing i with
  | some ms => decide (MISSING_GRACE_SECONDS ≤ t - ms)
  | none => false

/-- Third loop of `_refresh_active_runs`: ids missing beyond the grace period
are popped from `_active_runs` and deleted from `_missing_runs`. -/
def evictMissing (t : Int) (s : Store) : Store :=
  { s with
    active := fun i => if gracePassed s t i then none else s.active i
    missing := fun i => if gracePassed s t i then none else s.missing i }

/-- `LiveView._refresh_active_runs` called at monotonic time `t`, with the
backend returning the run list `runs`: set `_last_poll`, key the poll result
by instance id, then run the three loops in order. -/
def refreshActiveRuns (s : Store) (t : Int) (runs : List JobRun) : Store :=
  evictMissing t (markMissing (pollMap runs) t (pollUpsert (pollMap runs) { s with last_poll := t }))

/-- `LiveView._process_event` at monotonic time `t` (the clock reading used
for the ended-retention timestamp), with `run_match` the optional filter. -/
def processEvent (run_match : Option (JobRun → Bool)) (s : Store) (t : Int) (e : Event) : Store :=
  match e.jobRun with
  | none => s
  | some jr =>
    if matchRejects run_match jr then s
    else if e.isRootEnded then
      { s with
        active := fun i => if i = jr.instance_id then none else s.active i
        missing := fun i => if i = jr.instance_id then none else s.missing i
        ended := fun i => if i = jr.instance_id then some (jr, t) else s.ended i }
    else if (s.ended jr.instance_id).isSome then s
    else
      { s with
        active := fun i => if i = jr.instance_id then some jr else s.active i
        missing := fun i => if i = jr.instance_id then none else s.missing i }

/-- `LiveView._prune_ended` at monotonic time `now`: keep an ended entry iff
`now - ts < ENDED_RETENTION_SECONDS`. -/
def pruneEnded (s : Store) (now : Int) : Store :=
  { s with
    ended := fun i =>
      match s.ended i with
      | some (r, ts) => if now - ts < ENDED_RETENTION_SECONDS then some (r, ts) else none
      | none => none }

/-- Whether an instance id contributes a row to the list built by
`LiveView._sorted_runs` (`active` values plus retained `ended` runs; the
external `sort_runs` only permutes that list). -/
def idInSnapshot (s : Store) (i : InstanceID) : Bool :=
  (s.active i).isSome || (s.ended i).isSome

/-- One interleaved operation applied to the view state: an event processed by
`_process_event`, a poll applied by `_refresh_active_runs`, or a retention
sweep by `_prune_ended`, each at its own monotonic clock reading. -/
inductive Op where
  | ev (t : Int) (e : Event)
  | poll (t : Int) (runs : List JobRun)
  | prune (t : Int)

/-- Apply one operation. -/
def applyOp (run_match : Option (JobRun → Bool)) (s : Store) : Op → Store
  | .ev t e => processEvent run_match s t e
  | .poll t runs => refreshActiveRuns s t runs
  | .prune t => pruneEnded s t

/-- Apply a sequence of operations in order. -/
def applyOps (run_match : Option (JobRun → Bool)) (s : Store) (ops : List Op) : Store :=
  ops.foldl (applyOp run_match) s

/-- The poll result contains no run for the given id. -/
def pollAvoids (iid : InstanceID) (runs : List JobRun) : Bool :=
  runs.all (fun r => !(r.instance_id == iid))

/-- The event does not carry a run snapshot for the given id. -/
def eventAvoids (iid : InstanceID) (e : Event) : Bool :=
  match e.jobRun with
  | some jr => !(jr.instance_id == iid)
  | none => true

/-- The operation never mentions the given id: polls omit it and events do not
carry a run snapshot for it. -/
def Op.avoids (iid : InstanceID) : Op → Bool
  | .ev _ e => eventAvoids iid e
  | .poll _ runs => pollAvoids iid runs
  | .prune _ => true

/-- The operation cannot remove an entry from `_ended_runs` for the given id:
it is not a prune, and if it is a poll its result omits the id. -/
def Op.keepsEnded (iid : InstanceID) : Op → Bool
  | .ev _ _ => true
  | .poll _ runs => pollAvoids iid runs
  | .prune _ => false

/-- Result of the backend RPC `self._conn.get_active_runs(...)`: either the
run list or a raised transport error. -/
inductive RpcResult where
  | ok (runs : List JobRun)
  | err

/-- Outcome of one iteration of the `while True` loop body in `LiveView.run`:
`next` continues to the next iteration; `crashed` is an uncaught exception
propagating out of the loop (the surrounding `try` catches only
`KeyboardInterrupt`), carrying the object state at the point of propagation. -/
inductive TickResult where
  | next (s : Store)
  | crashed (s : Store)

/-- Whether the tick loop proceeds to another iteration. -/
def TickResult.continues : TickResult → Bool
  | .next _ => true
  | .crashed _ => false

/-- `LiveView._drain_events`: pop the queued events in order and feed each to
`_process_event` (each at its own clock reading for the ended timestamp). -/
def drainEvents (run_match : Option (JobRun → Bool)) (s : Store)
    (events : List (Int × Event)) : Store :=
  events.foldl (fun st p => processEvent run_match st p.1 p.2) s

/-- `_refresh_active_runs` with the backend call made explicit: the method
first sets `self._last_poll = time.monotonic()`, then calls
`get_active_runs`; a raised transport error aborts the method before any
partition is touched and propagates to the caller uncaught. -/
def refreshActiveRunsRpc (s : Store) (t : Int) (res : RpcResult) : TickResult :=
  match res with
  | .ok runs => .next (refreshActiveRuns s t runs)
  | .err => .crashed { s with last_poll := t }

/-- `LiveView._poll_if_due`: poll only when the heartbeat interval elapsed. -/
def pollIfDue (s : Store) (t : Int) (res : RpcResult) : TickResult :=
  if POLL_INTERVAL_SECONDS ≤ t - s.last_poll then refreshActiveRunsRpc s t res
  else .next s

/-- One iteration of the loop body in `LiveView.run`: drain events, poll if
due, prune ended entries.  Only `KeyboardInterrupt` is caught around the loop,
so a transport error raised by the poll RPC propagates. -/
def runTick (run_match : Option (JobRun → Bool)) (s : Store)
    (events : List (Int × Event)) (t : Int) (res : RpcResult) : TickResult :=
  match pollIfDue (drainEvents run_match s events) t res with
  | .next s2 => .next (pruneEnded s2 t)
  | .crashed sc => .crashed sc

/-- A job-instance proxy handle (`runtools.runcore.job.JobInstance`), external
to this repository and consumed opaquely by the selector. -/
structure JobInstance where
  instance_id : InstanceID
deriving DecidableEq

/-- `_row_key(iid)` in `selector.py`: `f"{iid.job_id}@{iid.run_id}"`. -/
def rowKey (iid : InstanceID) : String :=
  iid.job_id ++ "@" ++ iid.run_id

/-- The row state of `_LiveSelectorApp`: the `_runs` and `_instances` dicts
keyed by `_row_key` (the `DataTable` rows mirror `_runs` and are pure
presentation, not modelled). -/
structure SelectorState where
  runs : String → Option JobRun
  instances : String → Option JobInstance

/-- `_LiveSelectorApp._on_event`, with the `self._conn.get_instance(iid)` RPC
made explicit as the oracle `fetch` giving the backend's response to the
existence check for an unseen id. -/
def selectorOnEvent (run_match : Option (JobRun → Bool))
    (fetch : InstanceID → Option JobInstance) (st : SelectorState) (e : Event) : SelectorState :=
  match e.jobRun with
  | none => st
  | some jr =>
    if matchRejects run_match jr then st
    else
      let key := rowKey jr.instance_id
      if e.isRootEnded then
        { runs := fun k => if k = key then none else st.runs k
          instances := fun k => if k = key then none else st.instances k }
      else if jr.lifecycleEnded then st
      else if (st.runs key).isSome then
        { st with runs := fun k => if k = key then some jr else st.runs k }
      else
        match fetch jr.instance_id with
        | some inst =>
          { runs := fun k => if k = key then some jr else st.runs k
            instances := fun k => if k = key then some inst else st.instances k }
        | none => st

/-- Modelled from the spec: the discovery rule of spec §4.1 as it would read
on the live view — "when an event references an id not yet present in any
partition, the consumer performs a backend existence fetch
(`get_instance`/`get_active_runs`) and, if found, calls this to seed
`active`".  `LiveView._process_event` in the source performs no such fetch;
this definition renders the spec's words so the code can be compared against
them, with `fetch` the backend's response to the existence check. -/
def processEventSpecDiscovery (run_match : Option (JobRun → Bool))
    (fetch : InstanceID → Option JobRun) (s : Store) (t : Int) (e : Event) : Store :=
  match e.jobRun with
  | none => s
  | some jr =>
    if matchRejects run_match jr then s
    else if e.isRootEnded then
      { s with
        active := fun i => if i = jr.instance_id then none else s.active i
        missing := fun i => if i = jr.instance_id then none else s.missing i
        ended := fun i => if i = jr.instance_id then some (jr, t) else s.ended i }
    else if (s.ended jr.instance_id).isSome then s
    else if (s.active jr.instance_id).isSome || (s.missing jr.instance_id).isSome then
      { s with
        active := fun i => if i = jr.instance_id then some jr else s.active i
        missing := fun i => if i = jr.instance_id then none else s.missing i }
    else
      match fetch jr.instance_id with
      | some _ =>
        { s with
          active := fun i => if i = jr.instance_id then some jr else s.active i
          missing := fun i => if i = jr.instance_id then none else s.missing i }
      | none => s

/-- States of the view reachable from the empty store by event processing,
poll application and retention pruning, with polls restricted to never report
a run whose id currently sits in the ended-retained partition. -/
inductive ReachG (run_match : Option (JobRun → Bool)) : Store → Prop where
  | empty : ReachG run_match emptyStore
  | ev : ∀ {s : Store} (t : Int) (e : Event), ReachG run_match s →
      ReachG run_match (processEvent run_match s t e)
  | poll : ∀ {s : Store} (t : Int) (runs : List JobRun), ReachG run_match s →
      (∀ r ∈ runs, s.ended r.instance_id = none) →
      ReachG run_match (refreshActiveRuns s t runs)
  | prune : ∀ {s : Store} (t : Int), ReachG run_match s →
      ReachG run_match (pruneEnded s t)

/-- States of the view reachable from the empty store by an arbitrary sequence
of event processing, poll application and retention pruning — no restriction
on the poll results. -/
def Reach (run_match : Option (JobRun → Bool)) (s : Store) : Prop :=
  ∃ ops : List Op, s = applyOps run_match emptyStore ops

/-- Concrete fixture: an instance id used in counterexamples and witnesses. -/
def aId : InstanceID := { job_id := "job1", run_id := "r1" }

/-- Concrete fixture: a second instance id. -/
def bId : InstanceID := { job_id := "job2", run_id := "r2" }

/-- Concrete fixture: a non-ended run snapshot for `aId`. -/
def runA : JobRun := { instance_id := aId, lifecycleEnded := false, payload := 0 }

/-- Concrete fixture: a later snapshot of the same instance. -/
def runA2 : JobRun := { instance_id := aId, lifecycleEnded := false, payload := 1 }

/-- Concrete fixture: a non-ended run snapshot for `bId`. -/
def runB : JobRun := { instance_id := bId, lifecycleEnded := false, payload := 0 }

/-- Concrete fixture: a root-phase ENDED event for `runA`. -/
def endEvA : Event := Event.phase runA true Stage.ENDED

/-- Concrete fixture: a lifecycle (non-phase, hence non-root-ENDED) event
carrying the `runA` snapshot. -/
def lifeEvA : Event := Event.lifecycle runA

/-- A sequence of `_prune_ended` sweeps at the given monotonic times. -/
def pruneAll (s : Store) (ts : List Int) : Store :=
  ts.foldl pruneEnded s

/-- The per-id partition invariant claimed by the spec: membership in missing
implies membership in active, and membership in at most one of active and
ended. -/
def storeInv (s : Store) (i : InstanceID) : Prop :=
  ((s.missing i).isSome = true → (s.active i).isSome = true) ∧
  ¬((s.active i).isSome = true ∧ (s.ended i).isSome = true)

/-- Concrete execution, first step: a poll at time 0 reports `runA`. -/
def c1s1 : Store := refreshActiveRuns emptyStore 0 [runA]

/-- Second step: a root-phase ENDED event for `runA` at time 1. -/
def c1s2 : Store := processEvent none c1s1 1 endEvA

/-- Third step: a poll at time 2 still reports `runA` (a poll snapshot racing
with the just-processed ENDED event). -/
def c1s3 : Store := refreshActiveRuns c1s2 2 [runA]

/-- Variant third step used for the partition-disjointness counterexample: the
racing poll at time 3 reports the later snapshot `runA2`. -/
def c10s3 : Store := refreshActiveRuns c1s2 3 [runA2]

/-- Concrete execution for the grace-window analysis: poll at 0 reports
`runA`, polls at 1 and 6 report nothing, lifecycle event for `runA` at 7. -/
def c2s1 : Store := refreshActiveRuns emptyStore 0 [runA]

/-- After the empty poll at time 1: `aId` still active, marked missing. -/
def c2s2 : Store := refreshActiveRuns c2s1 1 []

/-- After the empty poll at time 6: `aId` evicted (6 - 1 >= 5). -/
def c2s3 : Store := refreshActiveRuns c2s2 6 []

/-- After a lifecycle event for `runA` at time 7. -/
def c2s4 : Store := processEvent none c2s3 7 lifeEvA

/-- A selector with no rows yet. -/
def selEmpty : SelectorState :=
  { runs := fun _ => none, instances := fun _ => none }

/-! ### Basic lemmas about the poll dict -/

lemma foldl_pollIns_avoid (iid : InstanceID) :
    ∀ (runs : List JobRun) (m : InstanceID → Option JobRun), pollAvoids iid runs = true →
      runs.foldl pollIns m iid = m iid := by
  intro runs
  induction runs with
  | nil => intro m _; rfl
  | cons r rs ih =>
    intro m h
    simp only [pollAvoids, List.all_cons, Bool.and_eq_true, Bool.not_eq_true',
      beq_eq_false_iff_ne, ne_eq] at h
    simp only [List.foldl_cons]
    rw [ih (pollIns m r) (by simpa [pollAvoids] using h.2)]
    simp only [pollIns]
    rw [if_neg (fun hc => h.1 hc.symm)]

/-- A poll result avoiding an id yields no dict entry for that id. -/
lemma pollMap_avoid {iid : InstanceID} {runs : List JobRun}
    (h : pollAvoids iid runs = true) : pollMap runs iid = none :=
  foldl_pollIns_avoid iid runs _ h

lemma foldl_pollIns_some (i : InstanceID) (r : JobRun) :
    ∀ (runs : List JobRun) (m : InstanceID → Option JobRun),
      runs.foldl pollIns m i = some r → (r ∈ runs ∧ r.instance_id = i) ∨ m i = some r := by
  intro runs
  induction runs with
  | nil => intro m h; exact Or.inr h
  | cons q rs ih =>
    intro m h
    simp only [List.foldl_cons] at h
    rcases ih (pollIns m q) h with h1 | h1
    · exact Or.inl ⟨List.mem_cons_of_mem q h1.1, h1.2⟩
    · simp only [pollIns] at h1
      by_cases hc : i = q.instance_id
      · simp only [hc, if_pos rfl] at h1
        obtain rfl : q = r := by exact Option.some.inj h1
        exact Or.inl ⟨List.mem_cons_self _ _, hc.symm⟩
      · simp only [if_neg hc] at h1
        exact Or.inr h1

/-- Every entry of the poll dict comes from the poll list and is keyed by its
own instance id. -/
lemma pollMap_spec {runs : List JobRun} {i : InstanceID} {r : JobRun}
    (h : pollMap runs i = some r) : r ∈ runs ∧ r.instance_id = i := by
  have h' : runs.foldl pollIns (fun _ => none) i = some r := h
  rcases foldl_pollIns_some i r runs (fun _ => none) h' with h1 | h1
  · exact h1
  · exact Option.noConfusion h1

lemma foldl_pollIns_congr (j : InstanceID) :
    ∀ (runs : List JobRun) (m₁ m₂ : InstanceID → Option JobRun), m₁ j = m₂ j →
      runs.foldl pollIns m₁ j = runs.foldl pollIns m₂ j := by
  intro runs
  induction runs with
  | nil => intro m₁ m₂ h; exact h
  | cons r rs ih =>
    intro m₁ m₂ h
    simp only [List.foldl_cons]
    exact ih _ _ (by simp [pollIns, h])

/-- Prepending a run for a different id leaves the poll dict unchanged there. -/
lemma pollMap_cons_ne {r : JobRun} {runs : List JobRun} {j : InstanceID}
    (h : j ≠ r.instance_id) : pollMap (r :: runs) j = pollMap runs j := by
  simp only [pollMap, List.foldl_cons]
  exact foldl_pollIns_congr j runs _ _ (by simp [pollIns, h])

/-- A run prepended for an id the remainder avoids becomes that id's entry. -/
lemma pollMap_cons_self {r : JobRun} {runs : List JobRun} {iid : InstanceID}
    (hr : r.instance_id = iid) (h : pollAvoids iid runs = true) :
    pollMap (r :: runs) iid = some r := by
  simp only [pollMap, List.foldl_cons]
  rw [foldl_pollIns_avoid iid runs _ h]
  simp [pollIns, hr]

/-! ### Pointwise behaviour of `_refresh_active_runs` -/

/-- A poll refresh never touches the ended-retained partition. -/
lemma refresh_ended_eq (s : Store) (t : Int) (runs : List JobRun) :
    (refreshActiveRuns s t runs).ended = s.ended := rfl

lemma refresh_last_poll (s : Store) (t : Int) (runs : List JobRun) :
    (refreshActiveRuns s t runs).last_poll = t := rfl

/-- An id reported by the poll is upserted into active and cleared from
missing, unconditionally. -/
lemma refresh_polled (s : Store) (t : Int) (runs : List JobRun) (i : InstanceID) (r : JobRun)
    (h : pollMap runs i = some r) :
    (refreshActiveRuns s t runs).active i = some r ∧
    (refreshActiveRuns s t runs).missing i = none := by
  simp [refreshActiveRuns, evictMissing, markMissing, pollUpsert, gracePassed, h]

/-- An id absent from the poll that was already marked missing keeps its
first-missing timestamp unless the grace period has elapsed, in which case it
is evicted from both active and missing. -/
lemma refresh_unpolled_missing_some (s : Store) (t : Int) (runs : List JobRun)
    (i : InstanceID) (t0 : Int) (hP : pollMap runs i = none) (hm : s.missing i = some t0) :
    (refreshActiveRuns s t runs).active i
      = (if MISSING_GRACE_SECONDS ≤ t - t0 then none else s.active i) ∧
    (refreshActiveRuns s t runs).missing i
      = (if MISSING_GRACE_SECONDS ≤ t - t0 then none else some t0) := by
  simp only [refreshActiveRuns, evictMissing, markMissing, pollUpsert, gracePassed, hP, hm]
  by_cases hg : MISSING_GRACE_SECONDS ≤ t - t0 <;> simp [hg]

/-- An id absent from the poll and not yet marked missing: if it is active it
is marked missing at `t` (and survives, the grace test at its own mark time
being vacuous); otherwise nothing changes for it. -/
lemma refresh_unpolled_missing_none (s : Store) (t : Int) (runs : List JobRun)
    (i : InstanceID) (hP : pollMap runs i = none) (hm : s.missing i = none) :
    (refreshActiveRuns s t runs).active i = s.active i ∧
    (refreshActiveRuns s t runs).missing i
      = (if (s.active i).isSome then some t else none) := by
  simp only [refreshActiveRuns, evictMissing, markMissing, pollUpsert, gracePassed, hP, hm]
  cases ha : s.active i
  · simp [ha]
  · simp only [ha, Option.isSome_some, Bool.true_and, Option.isNone_none, Bool.and_true,
      sub_self]
    simp
    decide

/-- An id absent from the poll and absent from active stays out of active. -/
lemma refresh_unpolled_active_none (s : Store) (t : Int) (runs : List JobRun)
    (i : InstanceID) (hP : pollMap runs i = none) (ha : s.active i = none) :
    (refreshActiveRuns s t runs).active i = none := by
  cases hm : s.missing i with
  | none => rw [(refresh_unpolled_missing_none s t runs i hP hm).1]; exact ha
  | some t0 =>
    rw [(refresh_unpolled_missing_some s t runs i t0 hP hm).1]
    by_cases hg : MISSING_GRACE_SECONDS ≤ t - t0 <;> simp [hg, ha]

/-! ### Pointwise behaviour of `_process_event` and `_prune_ended` -/

/-- An event with no run snapshot (an output event) is a no-op. -/
lemma processEvent_no_run {rm : Option (JobRun → Bool)} {s : Store} {t : Int} {e : Event}
    (h : e.jobRun = none) : processEvent rm s t e = s := by
  simp [processEvent, h]

/-- An event whose run the filter rejects is a no-op. -/
lemma processEvent_rejected {rm : Option (JobRun → Bool)} {s : Store} {t : Int} {e : Event}
    {jr : JobRun} (hjr : e.jobRun = some jr) (h : matchRejects rm jr = true) :
    processEvent rm s t e = s := by
  simp [processEvent, hjr, h]

/-- An event not carrying a run for an id touches none of that id's entries. -/
lemma processEvent_other {rm : Option (JobRun → Bool)} {s : Store} {t : Int} {e : Event}
    {i : InstanceID} (hav : eventAvoids i e = true) :
    (processEvent rm s t e).active i = s.active i ∧
    (processEvent rm s t e).missing i = s.missing i ∧
    (processEvent rm s t e).ended i = s.ended i := by
  cases hjr : e.jobRun with
  | none => rw [processEvent_no_run hjr]; exact ⟨rfl, rfl, rfl⟩
  | some jr =>
    have hne : i ≠ jr.instance_id := by
      simp only [eventAvoids, hjr, Bool.not_eq_true', beq_eq_false_iff_ne, ne_eq] at hav
      exact fun hc => hav hc.symm
    simp only [processEvent, hjr]
    by_cases h1 : matchRejects rm jr = true
    · simp [h1]
    · simp only [Bool.not_eq_true] at h1
      by_cases h2 : e.isRootEnded = true
      · simp [h1, h2, hne]
      · simp only [Bool.not_eq_true] at h2
        by_cases h3 : (s.ended jr.instance_id).isSome = true
        · simp [h1, h2, h3]
        · simp only [Bool.not_eq_true] at h3
          simp [h1, h2, h3, hne]

/-- A root-phase ENDED event accepted by the filter moves the run's id out of
active and missing and inserts its snapshot into ended at the current time. -/
lemma processEvent_root_ended {rm : Option (JobRun → Bool)} {s : Store} {t : Int} {e : Event}
    {jr : JobRun} (hjr : e.jobRun = some jr) (hroot : e.isRootEnded = true)
    (hm : matchRejects rm jr = false) :
    (processEvent rm s t e).active jr.instance_id = none ∧
    (processEvent rm s t e).missing jr.instance_id = none ∧
    (processEvent rm s t e).ended jr.instance_id = some (jr, t) := by
  simp [processEvent, hjr, hroot, hm]

/-- A non-root-ENDED event for an id currently retained in ended is a no-op
(the terminal-state guard of `_process_event`). -/
lemma processEvent_guard {rm : Option (JobRun → Bool)} {s : Store} {t : Int} {e : Event}
    {jr : JobRun} (hjr : e.jobRun = some jr) (hroot : e.isRootEnded = false)
    (hend : (s.ended jr.instance_id).isSome = true) :
    processEvent rm s t e = s := by
  simp [processEvent, hjr, hroot, hend]

/-- A non-root-ENDED accepted event for an id not retained in ended upserts
the snapshot into active and clears missing; ended is untouched. -/
lemma processEvent_upsert {rm : Option (JobRun → Bool)} {s : Store} {t : Int} {e : Event}
    {jr : JobRun} (hjr : e.jobRun = some jr) (hroot : e.isRootEnded = false)
    (hm : matchRejects rm jr = false) (hend : s.ended jr.instance_id = none) :
    (processEvent rm s t e).active jr.instance_id = some jr ∧
    (processEvent rm s t e).missing jr.instance_id = none ∧
    (processEvent rm s t e).ended = s.ended := by
  simp [processEvent, hjr, hroot, hm, hend]

/-- Event processing never deletes an ended entry: once an id is retained in
ended, it stays retained across any `_process_event` call. -/
lemma processEvent_ended_mono {rm : Option (JobRun → Bool)} {s : Store} {t : Int} {e : Event}
    {i : InstanceID} (h : (s.ended i).isSome = true) :
    ((processEvent rm s t e).ended i).isSome = true := by
  cases hjr : e.jobRun with
  | none => rw [processEvent_no_run hjr]; exact h
  | some jr =>
    simp only [processEvent, hjr]
    by_cases h1 : matchRejects rm jr = true
    · simp [h1, h]
    · simp only [Bool.not_eq_true] at h1
      by_cases h2 : e.isRootEnded = true
      · simp only [h1, h2, Bool.false_eq_true, if_false, if_true]
        by_cases hc : i = jr.instance_id <;> simp [hc, h]
      · simp only [Bool.not_eq_true] at h2
        by_cases h3 : (s.ended jr.instance_id).isSome = true
        · simp [h1, h2, h3, h]
        · simp only [Bool.not_eq_true] at h3
          simp [h1, h2, h3, h]

/-- Event processing never moves an id retained in ended into active: if the
id is out of active and retained in ended, it stays out of active. -/
lemma processEvent_stays_out {rm : Option (JobRun → Bool)} {s : Store} {t : Int} {e : Event}
    {i : InstanceID} (ha : s.active i = none) (hend : (s.ended i).isSome = true) :
    (processEvent rm s t e).active i = none := by
  cases hjr : e.jobRun with
  | none => rw [processEvent_no_run hjr]; exact ha
  | some jr =>
    by_cases hc : i = jr.instance_id
    · subst hc
      simp only [processEvent, hjr]
      by_cases h1 : matchRejects rm jr = true
      · simp [h1, ha]
      · simp only [Bool.not_eq_true] at h1
        by_cases h2 : e.isRootEnded = true
        · simp [h1, h2]
        · simp only [Bool.not_eq_true] at h2
          simp [h1, h2, hend, ha]
    · have hav : eventAvoids i e = true := by
        simp only [eventAvoids, hjr, Bool.not_eq_true', beq_eq_false_iff_ne, ne_eq]
        exact fun hc2 => hc hc2.symm
      rw [(processEvent_other hav).1]; exact ha

/-- Pruning never touches active, missing or the poll timestamp. -/
lemma prune_active_eq (s : Store) (now : Int) : (pruneEnded s now).active = s.active := rfl

lemma prune_missing_eq (s : Store) (now : Int) : (pruneEnded s now).missing = s.missing := rfl

/-- Pruning keeps an ended entry still inside the retention window. -/
lemma prune_keep {s : Store} {now : Int} {i : InstanceID} {r : JobRun} {ts : Int}
    (h : s.ended i = some (r, ts)) (hlt : now - ts < ENDED_RETENTION_SECONDS) :
    (pruneEnded s now).ended i = some (r, ts) := by
  simp [pruneEnded, h, hlt]

/-- Pruning evicts an ended entry past the retention window. -/
lemma prune_evict {s : Store} {now : Int} {i : InstanceID} {r : JobRun} {ts : Int}
    (h : s.ended i = some (r, ts)) (hge : ENDED_RETENTION_SECONDS ≤ now - ts) :
    (pruneEnded s now).ended i = none := by
  simp [pruneEnded, h]
  omega

/-- Pruning introduces no ended entry. -/
lemma prune_ended_none {s : Store} {now : Int} {i : InstanceID}
    (h : s.ended i = none) : (pruneEnded s now).ended i = none := by
  simp [pruneEnded, h]

/-- An ended entry surviving a prune was already present. -/
lemma prune_ended_isSome {s : Store} {now : Int} {i : InstanceID}
    (h : ((pruneEnded s now).ended i).isSome = true) : (s.ended i).isSome = true := by
  by_contra hc
  simp only [Bool.not_eq_true, Option.not_isSome, Option.isNone_iff_eq_none] at hc
  rw [prune_ended_none hc] at h
  simp at h

/-! ### Invariants along operation sequences -/

/-- An operation that never mentions an id cannot (re)introduce any entry for
it: an id absent from all three partitions stays absent. -/
lemma applyOp_keeps_out {rm : Option (JobRun → Bool)} {iid : InstanceID} {s : Store} {op : Op}
    (hav : Op.avoids iid op = true) (ha : s.active iid = none)
    (hm : s.missing iid = none) (he : s.ended iid = none) :
    (applyOp rm s op).active iid = none ∧ (applyOp rm s op).missing iid = none ∧
    (applyOp rm s op).ended iid = none := by
  cases op with
  | ev t e =>
    have h := @processEvent_other rm s t e iid hav
    exact ⟨h.1.trans ha, h.2.1.trans hm, h.2.2.trans he⟩
  | poll t runs =>
    have hP : pollMap runs iid = none := pollMap_avoid hav
    have h := refresh_unpolled_missing_none s t runs iid hP hm
    refine ⟨h.1.trans ha, ?_, he⟩
    show (refreshActiveRuns s t runs).missing iid = none
    rw [h.2, ha]
    simp
  | prune t => exact ⟨ha, hm, prune_ended_none he⟩

/-- Along any sequence of operations that never mention an id, an id absent
from all three partitions stays absent after every prefix. -/
lemma applyOps_keeps_out {rm : Option (JobRun → Bool)} {iid : InstanceID} :
    ∀ (ops : List Op) (s : Store), (∀ op ∈ ops, Op.avoids iid op = true) →
      s.active iid = none → s.missing iid = none → s.ended iid = none →
      ∀ n : Nat, (applyOps rm s (ops.take n)).active iid = none ∧
        (applyOps rm s (ops.take n)).missing iid = none ∧
        (applyOps rm s (ops.take n)).ended iid = none := by
  intro ops
  induction ops with
  | nil => intro s _ ha hm he n; simpa [applyOps] using ⟨ha, hm, he⟩
  | cons op rest ih =>
    intro s hav ha hm he n
    cases n with
    | zero => simpa [applyOps] using ⟨ha, hm, he⟩
    | succ k =>
      have hstep := @applyOp_keeps_out rm iid s op (hav op (List.mem_cons_self _ _)) ha hm he
      have := ih (applyOp rm s op) (fun o ho => hav o (List.mem_cons_of_mem _ ho))
        hstep.1 hstep.2.1 hstep.2.2 k
      simpa [applyOps, List.take_succ_cons] using this

/-- An operation that cannot remove the id's ended entry (any event, a poll
omitting the id; not a prune) keeps the id retained in ended and out of
active. -/
lemma applyOp_keeps_ended {rm : Option (JobRun → Bool)} {iid : InstanceID} {s : Store} {op : Op}
    (hk : Op.keepsEnded iid op = true) (he : (s.ended iid).isSome = true)
    (ha : s.active iid = none) :
    ((applyOp rm s op).ended iid).isSome = true ∧ (applyOp rm s op).active iid = none := by
  cases op with
  | ev t e => exact ⟨processEvent_ended_mono he, processEvent_stays_out ha he⟩
  | poll t runs =>
    have hP : pollMap runs iid = none := pollMap_avoid hk
    refine ⟨he, refresh_unpolled_active_none s t runs iid hP ha⟩
  | prune t => exact absurd hk (by simp [Op.keepsEnded])

/-- Along any sequence of events and polls omitting the id (no prunes), an id
retained in ended and out of active stays so after every prefix. -/
lemma applyOps_keeps_ended {rm : Option (JobRun → Bool)} {iid : InstanceID} :
    ∀ (ops : List Op) (s : Store), (∀ op ∈ ops, Op.keepsEnded iid op = true) →
      (s.ended iid).isSome = true → s.active iid = none →
      ∀ n : Nat, ((applyOps rm s (ops.take n)).ended iid).isSome = true ∧
        (applyOps rm s (ops.take n)).active iid = none := by
  intro ops
  induction ops with
  | nil => intro s _ he ha n; simpa [applyOps] using ⟨he, ha⟩
  | cons op rest ih =>
    intro s hk he ha n
    cases n with
    | zero => simpa [applyOps] using ⟨he, ha⟩
    | succ k =>
      have hstep := @applyOp_keeps_ended rm iid s op (hk op (List.mem_cons_self _ _)) he ha
      have := ih (applyOp rm s op) (fun o ho => hk o (List.mem_cons_of_mem _ ho))
        hstep.1 hstep.2 k
      simpa [applyOps, List.take_succ_cons] using this

/-! ### Lemmas about prune sequences and refresh congruence -/

/-- Prune sweeps never touch the active partition. -/
lemma pruneAll_active (ts : List Int) : ∀ s : Store, (pruneAll s ts).active = s.active := by
  induction ts with
  | nil => intro s; rfl
  | cons τ rest ih => intro s; exact (ih (pruneEnded s τ)).trans (prune_active_eq s τ)

/-- An ended entry survives every sweep still inside its retention window. -/
lemma pruneAll_keep {i : InstanceID} {r : JobRun} {T : Int} :
    ∀ (ts : List Int) (s : Store), s.ended i = some (r, T) →
      (∀ τ ∈ ts, τ - T < ENDED_RETENTION_SECONDS) → (pruneAll s ts).ended i = some (r, T) := by
  intro ts
  induction ts with
  | nil => intro s h _; exact h
  | cons τ rest ih =>
    intro s h hts
    exact ih (pruneEnded s τ) (prune_keep h (hts τ (List.mem_cons_self _ _)))
      (fun τ2 hτ2 => hts τ2 (List.mem_cons_of_mem _ hτ2))

/-- No sweep resurrects an evicted ended entry. -/
lemma pruneAll_none {i : InstanceID} :
    ∀ (ts : List Int) (s : Store), s.ended i = none → (pruneAll s ts).ended i = none := by
  intro ts
  induction ts with
  | nil => intro s h; exact h
  | cons τ rest ih => intro s h; exact ih (pruneEnded s τ) (prune_ended_none h)

/-- The outcome of a refresh at one id depends only on that id's poll entry
and its prior entries in the three partitions. -/
lemma refresh_congr_at (s₁ s₂ : Store) (t : Int) (runs₁ runs₂ : List JobRun) (j : InstanceID)
    (hP : pollMap runs₁ j = pollMap runs₂ j) (ha : s₁.active j = s₂.active j)
    (hm : s₁.missing j = s₂.missing j) (he : s₁.ended j = s₂.ended j) :
    (refreshActiveRuns s₁ t runs₁).active j = (refreshActiveRuns s₂ t runs₂).active j ∧
    (refreshActiveRuns s₁ t runs₁).missing j = (refreshActiveRuns s₂ t runs₂).missing j ∧
    (refreshActiveRuns s₁ t runs₁).ended j = (refreshActiveRuns s₂ t runs₂).ended j := by
  simp only [refreshActiveRuns, evictMissing, markMissing, pollUpsert, gracePassed]
  rw [hP, ha, hm, he]
  exact ⟨rfl, rfl, rfl⟩

/-! ### Idempotence of a repeated identical poll -/

lemma refresh_idem_pointwise (s : Store) (t : Int) (runs : List JobRun) (i : InstanceID) :
    (refreshActiveRuns (refreshActiveRuns s t runs) t runs).active i
      = (refreshActiveRuns s t runs).active i ∧
    (refreshActiveRuns (refreshActiveRuns s t runs) t runs).missing i
      = (refreshActiveRuns s t runs).missing i := by
  cases hP : pollMap runs i with
  | some r =>
    have hin := refresh_polled (refreshActiveRuns s t runs) t runs i r hP
    have hout := refresh_polled s t runs i r hP
    exact ⟨hin.1.trans hout.1.symm, hin.2.trans hout.2.symm⟩
  | none =>
    cases hm : s.missing i with
    | none =>
      have h1 := refresh_unpolled_missing_none s t runs i hP hm
      cases ha : s.active i with
      | none =>
        have hm1 : (refreshActiveRuns s t runs).missing i = none := by
          rw [h1.2, ha]; rfl
        have h2 := refresh_unpolled_missing_none (refreshActiveRuns s t runs) t runs i hP hm1
        refine ⟨h2.1, ?_⟩
        rw [h2.2, h1.1, ha, hm1]
        rfl
      | some r0 =>
        have hm1 : (refreshActiveRuns s t runs).missing i = some t := by
          rw [h1.2, ha]; rfl
        have h2 := refresh_unpolled_missing_some (refreshActiveRuns s t runs) t runs i t hP hm1
        have hng : ¬ (MISSING_GRACE_SECONDS ≤ t - t) := by
          rw [sub_self]; decide
        constructor
        · rw [h2.1, if_neg hng]
        · rw [h2.2, if_neg hng, hm1]
    | some t0 =>
      have h1 := refresh_unpolled_missing_some s t runs i t0 hP hm
      by_cases hg : MISSING_GRACE_SECONDS ≤ t - t0
      · have ha1 : (refreshActiveRuns s t runs).active i = none := by
          rw [h1.1, if_pos hg]
        have hm1 : (refreshActiveRuns s t runs).missing i = none := by
          rw [h1.2, if_pos hg]
        have h2 := refresh_unpolled_missing_none (refreshActiveRuns s t runs) t runs i hP hm1
        refine ⟨h2.1, ?_⟩
        rw [h2.2, ha1, hm1]
        rfl
      · have ha1 : (refreshActiveRuns s t runs).active i = s.active i := by
          rw [h1.1, if_neg hg]
        have hm1 : (refreshActiveRuns s t runs).missing i = some t0 := by
          rw [h1.2, if_neg hg]
        have h2 := refresh_unpolled_missing_some (refreshActiveRuns s t runs) t runs i t0 hP hm1
        constructor
        · rw [h2.1, if_neg hg]
        · rw [h2.2, if_neg hg, hm1]

/-! ### Preservation of the partition invariant -/

/-- `_process_event` preserves the partition invariant at every id. -/
lemma inv_step_ev {rm : Option (JobRun → Bool)} {s : Store} {t : Int} {e : Event}
    {i : InstanceID} (ih : storeInv s i) : storeInv (processEvent rm s t e) i := by
  cases hjr : e.jobRun with
  | none => rw [processEvent_no_run hjr]; exact ih
  | some jr =>
    by_cases h1 : matchRejects rm jr = true
    · rw [processEvent_rejected hjr h1]; exact ih
    · have h1' : matchRejects rm jr = false := by simpa using h1
      by_cases hc : i = jr.instance_id
      · subst hc
        by_cases h2 : e.isRootEnded = true
        · have h := processEvent_root_ended (s := s) (t := t) hjr h2 h1'
          constructor
          · intro hms
            rw [h.2.1] at hms
            simp at hms
          · rintro ⟨hA, _⟩
            rw [h.1] at hA
            simp at hA
        · have h2' : e.isRootEnded = false := by simpa using h2
          by_cases h3 : (s.ended jr.instance_id).isSome = true
          · rw [processEvent_guard hjr h2' h3]; exact ih
          · have h3' : s.ended jr.instance_id = none := by
              simpa [Option.isNone_iff_eq_none] using h3
            have h := processEvent_upsert (s := s) (t := t) hjr h2' h1' h3'
            constructor
            · intro _
              rw [h.1]
              rfl
            · rintro ⟨_, hE⟩
              rw [h.2.2, h3'] at hE
              simp at hE
      · have hav : eventAvoids i e = true := by
          simp only [eventAvoids, hjr, Bool.not_eq_true', beq_eq_false_iff_ne, ne_eq]
          exact fun hc2 => hc hc2.symm
        have h := @processEvent_other rm s t e i hav
        constructor
        · intro hms
          rw [h.2.1] at hms
          rw [h.1]
          exact ih.1 hms
        · rintro ⟨hA, hE⟩
          rw [h.1] at hA
          rw [h.2.2] at hE
          exact ih.2 ⟨hA, hE⟩

/-- `_refresh_active_runs` preserves the partition invariant at every id,
provided the poll result reports no run whose id is currently ended-retained. -/
lemma inv_step_poll {s : Store} {t : Int} {runs : List JobRun} {i : InstanceID}
    (ih : storeInv s i) (hg : ∀ r ∈ runs, s.ended r.instance_id = none) :
    storeInv (refreshActiveRuns s t runs) i := by
  have hEnded : (refreshActiveRuns s t runs).ended i = s.ended i := by
    rw [refresh_ended_eq]
  cases hP : pollMap runs i with
  | some r =>
    have hik := pollMap_spec hP
    have hend : s.ended i = none := by rw [← hik.2]; exact hg r hik.1
    have h := refresh_polled s t runs i r hP
    constructor
    · intro _
      rw [h.1]
      rfl
    · rintro ⟨_, hE⟩
      rw [hEnded, hend] at hE
      simp at hE
  | none =>
    cases hm : s.missing i with
    | none =>
      have h := refresh_unpolled_missing_none s t runs i hP hm
      constructor
      · intro hms
        rw [h.2] at hms
        rw [h.1]
        by_cases ha : (s.active i).isSome = true
        · exact ha
        · rw [Bool.not_eq_true] at ha
          rw [ha] at hms
          simp at hms
      · rintro ⟨hA, hE⟩
        rw [h.1] at hA
        rw [hEnded] at hE
        exact ih.2 ⟨hA, hE⟩
    | some t0 =>
      have h := refresh_unpolled_missing_some s t runs i t0 hP hm
      by_cases hgr : MISSING_GRACE_SECONDS ≤ t - t0
      · constructor
        · intro hms
          rw [h.2, if_pos hgr] at hms
          simp at hms
        · rintro ⟨hA, _⟩
          rw [h.1, if_pos hgr] at hA
          simp at hA
      · constructor
        · intro _
          rw [h.1, if_neg hgr]
          exact ih.1 (by rw [hm]; rfl)
        · rintro ⟨hA, hE⟩
          rw [h.1, if_neg hgr] at hA
          rw [hEnded] at hE
          exact ih.2 ⟨hA, hE⟩

/-- `_prune_ended` preserves the partition invariant at every id. -/
lemma inv_step_prune {s : Store} {now : Int} {i : InstanceID} (ih : storeInv s i) :
    storeInv (pruneEnded s now) i := by
  constructor
  · intro hms
    rw [show (pruneEnded s now).missing i = s.missing i from rfl] at hms
    rw [show (pruneEnded s now).active i = s.active i from rfl]
    exact ih.1 hms
  · rintro ⟨hA, hE⟩
    rw [show (pruneEnded s now).active i = s.active i from rfl] at hA
    exact ih.2 ⟨hA, prune_ended_isSome hE⟩

/-- Every single operation — with no restriction on the poll result — keeps
the missing partition a subset of the active partition at every id: every
write to missing is guarded by membership in active, and every removal from
active also clears missing. -/
lemma missing_sub_active_step {rm : Option (JobRun → Bool)} {s : Store} {op : Op}
    {i : InstanceID} (ih : (s.missing i).isSome = true → (s.active i).isSome = true) :
    ((applyOp rm s op).missing i).isSome = true → ((applyOp rm s op).active i).isSome = true := by
  cases op with
  | ev t e =>
    show ((processEvent rm s t e).missing i).isSome = true →
      ((processEvent rm s t e).active i).isSome = true
    cases hjr : e.jobRun with
    | none => rw [processEvent_no_run hjr]; exact ih
    | some jr =>
      by_cases h1 : matchRejects rm jr = true
      · rw [processEvent_rejected hjr h1]; exact ih
      · have h1' : matchRejects rm jr = false := by simpa using h1
        by_cases hc : i = jr.instance_id
        · subst hc
          by_cases h2 : e.isRootEnded = true
          · have h := @processEvent_root_ended rm s t e jr hjr h2 h1'
            intro hms
            rw [h.2.1] at hms
            simp at hms
          · have h2' : e.isRootEnded = false := by simpa using h2
            by_cases h3 : (s.ended jr.instance_id).isSome = true
            · rw [processEvent_guard hjr h2' h3]; exact ih
            · have h3' : s.ended jr.instance_id = none := by
                simpa [Option.isNone_iff_eq_none] using h3
              have h := @processEvent_upsert rm s t e jr hjr h2' h1' h3'
              intro _
              rw [h.1]
              rfl
        · have hav : eventAvoids i e = true := by
            simp only [eventAvoids, hjr, Bool.not_eq_true', beq_eq_false_iff_ne, ne_eq]
            exact fun hc2 => hc hc2.symm
          have h := @processEvent_other rm s t e i hav
          intro hms
          rw [h.2.1] at hms
          rw [h.1]
          exact ih hms
  | poll t runs =>
    show ((refreshActiveRuns s t runs).missing i).isSome = true →
      ((refreshActiveRuns s t runs).active i).isSome = true
    cases hP : pollMap runs i with
    | some r =>
      have h := refresh_polled s t runs i r hP
      intro hms
      rw [h.2] at hms
      simp at hms
    | none =>
      cases hm : s.missing i with
      | none =>
        have h := refresh_unpolled_missing_none s t runs i hP hm
        intro hms
        rw [h.2] at hms
        rw [h.1]
        by_cases ha : (s.active i).isSome = true
        · exact ha
        · rw [Bool.not_eq_true] at ha
          rw [ha] at hms
          simp at hms
      | some t0 =>
        have h := refresh_unpolled_missing_some s t runs i t0 hP hm
        by_cases hgr : MISSING_GRACE_SECONDS ≤ t - t0
        · intro hms
          rw [h.2, if_pos hgr] at hms
          simp at hms
        · intro _
          rw [h.1, if_neg hgr]
          exact ih (by rw [hm]; rfl)
  | prune t =>
    show ((pruneEnded s t).missing i).isSome = true → ((pruneEnded s t).active i).isSome = true
    rw [show (pruneEnded s t).missing i = s.missing i from rfl,
      show (pruneEnded s t).active i = s.active i from rfl]
    exact ih

/-- Along every operation sequence, with no restriction on poll results, the
missing partition stays a subset of the active partition at every id. -/
lemma missing_sub_active_ops {rm : Option (JobRun → Bool)} {i : InstanceID} :
    ∀ (ops : List Op) (s : Store),
      ((s.missing i).isSome = true → (s.active i).isSome = true) →
      ((applyOps rm s ops).missing i).isSome = true →
      ((applyOps rm s ops).active i).isSome = true := by
  intro ops
  induction ops with
  | nil => intro s ih; exact ih
  | cons op rest ihops =>
    intro s ih
    exact ihops (applyOp rm s op) (missing_sub_active_step ih)

/-! ### Claim theorems -/

/-- Claim C1, counterexample: after a poll reports `runA` and a root-phase
ENDED event moves `aId` into `_ended_runs` (and out of `_active_runs`), a
subsequent `_refresh_active_runs` whose poll result still reports the run puts
the id back into `_active_runs` — no `_prune_ended` involved.  The claim as
stated is therefore false. -/
theorem c1_counterexample :
    (c1s2.ended aId).isSome = true ∧ c1s2.active aId = none ∧
    (c1s3.active aId).isSome = true := by
  decide

/-- Claim C1 (amended): once an id has been moved into `_ended_runs` and out
of `_active_runs`, no subsequent `_process_event` call, and no subsequent
`_refresh_active_runs` call whose poll result contains no run for that id,
puts the id back into `_active_runs` (retention evictions by `_prune_ended`
excluded, as in the claim); a poll whose result does contain the id does
re-insert it, as the counterexample shows. -/
theorem c1_terminal_invariant_amended (rm : Option (JobRun → Bool)) (iid : InstanceID)
    (s : Store) (ops : List Op) (he : (s.ended iid).isSome = true)
    (ha : s.active iid = none) (hk : ∀ op ∈ ops, Op.keepsEnded iid op = true) :
    ∀ n : Nat, (applyOps rm s (ops.take n)).active iid = none ∧
      ((applyOps rm s (ops.take n)).ended iid).isSome = true := by
  intro n
  have h := @applyOps_keeps_ended rm iid ops s hk he ha n
  exact ⟨h.2, h.1⟩

/-- Witness for C1 (amended): the ended state reached by processing the ENDED
event, followed by an event and a poll that avoid the id. -/
theorem c1_witness :
    ((c1s2.ended aId).isSome = true ∧ c1s2.active aId = none ∧
      (∀ op ∈ [Op.ev 3 (Event.lifecycle runB), Op.poll 4 [runB]],
        Op.keepsEnded aId op = true)) ∧
    (applyOps none c1s2 ([Op.ev 3 (Event.lifecycle runB), Op.poll 4 [runB]].take 2)).active aId
      = none := by
  refine ⟨⟨by decide, by decide, by decide⟩, ?_⟩
  exact (c1_terminal_invariant_amended none aId c1s2
    [Op.ev 3 (Event.lifecycle runB), Op.poll 4 [runB]]
    (by decide) (by decide) (by decide) 2).1

/-- Claim C4, counterexample: the constants defined in the live-view module
have `MISSING_GRACE_SECONDS = 5` and `POLL_INTERVAL_SECONDS = 10`, so the
claimed strict inequality `grace > interval` is false. -/
theorem c4_counterexample : ¬ (MISSING_GRACE_SECONDS > POLL_INTERVAL_SECONDS) := by
  decide

/-- Claim C4 (amended): the configured missing-grace window is strictly
smaller than the configured poll interval, the opposite of the claimed
relation. -/
theorem c4_grace_below_interval : MISSING_GRACE_SECONDS < POLL_INTERVAL_SECONDS := by
  decide

/-- Claim C8: applying `_refresh_active_runs` twice in a row with the same
poll result at the same observation time leaves all three partitions equal to
their contents after applying it once — for every starting state. -/
theorem c8_poll_idempotent (s : Store) (t : Int) (runs : List JobRun) :
    (refreshActiveRuns (refreshActiveRuns s t runs) t runs).active
      = (refreshActiveRuns s t runs).active ∧
    (refreshActiveRuns (refreshActiveRuns s t runs) t runs).ended
      = (refreshActiveRuns s t runs).ended ∧
    (refreshActiveRuns (refreshActiveRuns s t runs) t runs).missing
      = (refreshActiveRuns s t runs).missing := by
  refine ⟨funext fun i => (refresh_idem_pointwise s t runs i).1,
    refresh_ended_eq _ t runs, funext fun i => (refresh_idem_pointwise s t runs i).2⟩

/-- Claim C9: an event carrying no run snapshot (an output event), and an
event whose run the caller-supplied filter predicate rejects, leave the store
— all three partitions — exactly unchanged. -/
theorem c9_rejected_event_noop (rm : Option (JobRun → Bool)) (s : Store) (t : Int) (e : Event) :
    (e.jobRun = none → processEvent rm s t e = s) ∧
    (∀ (p : JobRun → Bool) (jr : JobRun), rm = some p → e.jobRun = some jr → p jr = false →
      processEvent rm s t e = s) := by
  constructor
  · exact processEvent_no_run
  · intro p jr hrm hjr hp
    exact processEvent_rejected hjr (by simp [matchRejects, hrm, hp])

/-- Witness for C9: an output event, and a lifecycle event rejected by a
concrete predicate, both leave the empty store unchanged. -/
theorem c9_witness :
    processEvent none emptyStore 0 Event.output = emptyStore ∧
    processEvent (some (fun r => r.payload == 5)) emptyStore 0 (Event.lifecycle runA)
      = emptyStore := by
  constructor
  · exact (c9_rejected_event_noop none emptyStore 0 Event.output).1 rfl
  · exact (c9_rejected_event_noop (some (fun r => r.payload == 5)) emptyStore 0
      (Event.lifecycle runA)).2 (fun r => r.payload == 5) runA rfl rfl (by decide)

/-- Claim C2, counterexample: `aId` enters active via the poll at time 0;
afterwards no poll result ever contains it and no root-phase ENDED event for
it is ever processed, and it is evicted from both partitions by the empty poll
at time 6 (6 - 1 ≥ 5).  Yet a plain lifecycle event at time 7 — allowed by the
claim's hypotheses — re-inserts it, so it appears in the combined snapshot
again: "never again appears" is false as stated. -/
theorem c2_counterexample :
    (c2s1.active aId).isSome = true ∧
    c2s2.missing aId = some 1 ∧
    (c2s3.active aId = none ∧ c2s3.missing aId = none) ∧
    idInSnapshot c2s4 aId = true := by
  decide

/-- Claim C2 (amended): for an id in active, (i) a poll omitting it while its
grace window has not elapsed keeps it in active with its first-missing
timestamp; (ii) the first poll at a time `t` with `t - first_missing_at ≥
MISSING_GRACE_SECONDS` evicts it from both active and missing (this grace
eviction runs inside `_refresh_active_runs`, not in `_prune_ended`); (iii) a
poll omitting an id not yet marked missing marks it missing at the poll time
and keeps it active; (iv) once out of all partitions, the id never again
appears in the combined snapshot provided — strengthening the claim's
hypotheses — no later event carries a run snapshot for it either. -/
theorem c2_grace_window_amended (rm : Option (JobRun → Bool)) (iid : InstanceID) :
    (∀ (s : Store) (t0 t : Int) (runs : List JobRun), s.missing iid = some t0 →
        pollAvoids iid runs = true → t - t0 < MISSING_GRACE_SECONDS →
        (refreshActiveRuns s t runs).active iid = s.active iid ∧
        (refreshActiveRuns s t runs).missing iid = some t0) ∧
    (∀ (s : Store) (t0 t : Int) (runs : List JobRun), s.missing iid = some t0 →
        pollAvoids iid runs = true → MISSING_GRACE_SECONDS ≤ t - t0 →
        (refreshActiveRuns s t runs).active iid = none ∧
        (refreshActiveRuns s t runs).missing iid = none) ∧
    (∀ (s : Store) (t : Int) (runs : List JobRun), (s.active iid).isSome = true →
        s.missing iid = none → pollAvoids iid runs = true →
        (refreshActiveRuns s t runs).active iid = s.active iid ∧
        (refreshActiveRuns s t runs).missing iid = some t) ∧
    (∀ (s : Store) (ops : List Op), s.active iid = none → s.missing iid = none →
        s.ended iid = none → (∀ op ∈ ops, Op.avoids iid op = true) →
        ∀ n : Nat, idInSnapshot (applyOps rm s (ops.take n)) iid = false ∧
          (applyOps rm s (ops.take n)).missing iid = none) := by
  refine ⟨?_, ?_, ?_, ?_⟩
  · intro s t0 t runs hm hav hlt
    have h := refresh_unpolled_missing_some s t runs iid t0 (pollMap_avoid hav) hm
    have hng : ¬ (MISSING_GRACE_SECONDS ≤ t - t0) := by omega
    exact ⟨by rw [h.1, if_neg hng], by rw [h.2, if_neg hng]⟩
  · intro s t0 t runs hm hav hge
    have h := refresh_unpolled_missing_some s t runs iid t0 (pollMap_avoid hav) hm
    exact ⟨by rw [h.1, if_pos hge], by rw [h.2, if_pos hge]⟩
  · intro s t runs ha hm hav
    have h := refresh_unpolled_missing_none s t runs iid (pollMap_avoid hav) hm
    exact ⟨h.1, by rw [h.2, if_pos ha]⟩
  · intro s ops ha hm he hav n
    have h := @applyOps_keeps_out rm iid ops s hav ha hm he n
    refine ⟨?_, h.2.1⟩
    simp [idInSnapshot, h.1, h.2.2]

/-- Witness for C2 (amended): the eviction at the concrete poll of time 6,
and the absence from the snapshot across a later prune. -/
theorem c2_witness :
    (c2s2.missing aId = some 1 ∧ pollAvoids aId ([] : List JobRun) = true ∧
      MISSING_GRACE_SECONDS ≤ 6 - 1) ∧
    ((refreshActiveRuns c2s2 6 []).active aId = none ∧
      (refreshActiveRuns c2s2 6 []).missing aId = none) ∧
    idInSnapshot (applyOps none c2s3 ([Op.prune 8].take 1)) aId = false := by
  refine ⟨⟨by decide, by decide, by decide⟩, ?_, ?_⟩
  · exact (c2_grace_window_amended none aId).2.1 c2s2 1 6 [] (by decide) (by decide) (by decide)
  · exact ((c2_grace_window_amended none aId).2.2.2 c2s3 [Op.prune 8]
      (by decide) (by decide) (by decide) (by decide) 1).1

/-- Claim C3, counterexample: with the poll due (`20 - 0 ≥ 10`) and the
backend RPC raising a transport error, the tick does not continue to the next
iteration — only `KeyboardInterrupt` is caught around the loop, so the error
propagates and the loop crashes. -/
theorem c3_counterexample :
    (runTick none emptyStore [] 20 RpcResult.err).continues = false := by
  decide

/-- Claim C3 (amended): a transport error from `get_active_runs` during a due
poll is NOT recovered inside the tick: it propagates out of the loop body
(terminating the live view).  At the point of propagation no partition has
been modified by the failed poll — only `_last_poll` was updated before the
RPC call — so every run is still in whatever partition it was in after the
event drain. -/
theorem c3_failed_poll_amended (rm : Option (JobRun → Bool)) (s : Store)
    (events : List (Int × Event)) (t : Int)
    (hdue : POLL_INTERVAL_SECONDS ≤ t - (drainEvents rm s events).last_poll) :
    runTick rm s events t RpcResult.err
      = TickResult.crashed { drainEvents rm s events with last_poll := t } ∧
    ({ drainEvents rm s events with last_poll := t } : Store).active
      = (drainEvents rm s events).active ∧
    ({ drainEvents rm s events with last_poll := t } : Store).ended
      = (drainEvents rm s events).ended ∧
    ({ drainEvents rm s events with last_poll := t } : Store).missing
      = (drainEvents rm s events).missing := by
  refine ⟨?_, rfl, rfl, rfl⟩
  simp [runTick, pollIfDue, refreshActiveRunsRpc, hdue]

/-- Witness for C3 (amended) at a concrete due tick with no queued events. -/
theorem c3_witness :
    POLL_INTERVAL_SECONDS ≤ 20 - (drainEvents none emptyStore []).last_poll ∧
    runTick none emptyStore [] 20 RpcResult.err
      = TickResult.crashed { drainEvents none emptyStore [] with last_poll := 20 } := by
  refine ⟨by decide, ?_⟩
  exact (c3_failed_poll_amended none emptyStore [] 20 (by decide)).1

/-- Claim C5, counterexample: a lifecycle event for the unseen id `aId` makes
`LiveView._process_event` seed `_active_runs` directly from the event
snapshot, although the spec's discovery rule (rendered as
`processEventSpecDiscovery`) with a backend that knows no such instance would
not insert it — the live view performs no RPC existence check at all. -/
theorem c5_counterexample :
    (processEvent none emptyStore 0 lifeEvA).active aId = some runA ∧
    (processEventSpecDiscovery none (fun _ => none) emptyStore 0 lifeEvA).active aId
      = none := by
  decide

/-- Claim C5 (amended): the selector's `_on_event` does perform the
`get_instance` existence check — an unseen id is inserted into its rows iff
the fetch finds the instance — but `LiveView._process_event` seeds
`_active_runs` directly from the event snapshot, with no existence check. -/
theorem c5_discovery_amended (rm : Option (JobRun → Bool)) :
    (∀ (fetch : InstanceID → Option JobInstance) (st : SelectorState) (jr : JobRun),
      matchRejects rm jr = false → jr.lifecycleEnded = false →
      st.runs (rowKey jr.instance_id) = none →
      ((selectorOnEvent rm fetch st (Event.lifecycle jr)).runs (rowKey jr.instance_id)).isSome
        = (fetch jr.instance_id).isSome) ∧
    (∀ (s : Store) (t : Int) (jr : JobRun), matchRejects rm jr = false →
      s.ended jr.instance_id = none →
      (processEvent rm s t (Event.lifecycle jr)).active jr.instance_id = some jr) := by
  constructor
  · intro fetch st jr hm hl hun
    simp only [selectorOnEvent, Event.jobRun, hm, Bool.false_eq_true, if_false,
      Event.isRootEnded, hl, hun]
    cases hf : fetch jr.instance_id <;> simp [hf, hun]
  · intro s t jr hm hend
    exact (processEvent_upsert (e := Event.lifecycle jr) rfl rfl hm hend).1

/-- Witness for C5 (amended): with an empty selector, a backend knowing no
instance yields no row, and the live view nevertheless caches the run. -/
theorem c5_witness :
    (matchRejects none runA = false ∧ runA.lifecycleEnded = false ∧
      selEmpty.runs (rowKey aId) = none) ∧
    ((selectorOnEvent none (fun _ => none) selEmpty (Event.lifecycle runA)).runs
      (rowKey aId)).isSome = false ∧
    (processEvent none emptyStore 0 (Event.lifecycle runA)).active aId = some runA := by
  refine ⟨⟨by decide, by decide, by decide⟩, ?_, ?_⟩
  · have h := (c5_discovery_amended none).1 (fun _ => none) selEmpty runA
      (by decide) (by decide) (by decide)
    simpa using h
  · exact (c5_discovery_amended none).2 emptyStore 0 runA (by decide) (by decide)

/-- Claim C6: an id in active that is absent from one applied poll (getting
marked missing at `t1`) and present again in the next applied poll at `t2`
before its grace window elapses never enters the ended-retained partition, is
removed from missing, carries exactly the latest poll's snapshot in active —
and the resulting state is completely equal to the state produced had the
first poll also reported the id: indistinguishable from never missing. -/
theorem c6_transient_gap (s : Store) (iid : InstanceID) (t1 t2 : Int)
    (runs1 runs2 : List JobRun) (run2 : JobRun)
    (hact : (s.active iid).isSome = true) (hmis : s.missing iid = none)
    (hend : s.ended iid = none)
    (h1 : pollAvoids iid runs1 = true) (h2 : pollMap runs2 iid = some run2)
    (hgrace : t2 - t1 < MISSING_GRACE_SECONDS) :
    (refreshActiveRuns s t1 runs1).active iid = s.active iid ∧
    (refreshActiveRuns s t1 runs1).missing iid = some t1 ∧
    (refreshActiveRuns s t1 runs1).ended iid = none ∧
    (refreshActiveRuns (refreshActiveRuns s t1 runs1) t2 runs2).ended iid = none ∧
    (refreshActiveRuns (refreshActiveRuns s t1 runs1) t2 runs2).missing iid = none ∧
    (refreshActiveRuns (refreshActiveRuns s t1 runs1) t2 runs2).active iid = some run2 ∧
    (∀ rA : JobRun, rA.instance_id = iid →
      refreshActiveRuns (refreshActiveRuns s t1 (rA :: runs1)) t2 runs2
        = refreshActiveRuns (refreshActiveRuns s t1 runs1) t2 runs2) := by
  have hP1 : pollMap runs1 iid = none := pollMap_avoid h1
  have hs1 := refresh_unpolled_missing_none s t1 runs1 iid hP1 hmis
  have hs1m : (refreshActiveRuns s t1 runs1).missing iid = some t1 := by
    rw [hs1.2, if_pos hact]
  have hs2 := refresh_polled (refreshActiveRuns s t1 runs1) t2 runs2 iid run2 h2
  refine ⟨hs1.1, hs1m, ?_, ?_, hs2.2, hs2.1, ?_⟩
  · rw [refresh_ended_eq]; exact hend
  · rw [refresh_ended_eq, refresh_ended_eq]; exact hend
  · intro rA hrA
    apply Store.ext
    · funext j
      by_cases hj : j = iid
      · subst hj
        rw [(refresh_polled (refreshActiveRuns s t1 (rA :: runs1)) t2 runs2 j run2 h2).1,
          (refresh_polled (refreshActiveRuns s t1 runs1) t2 runs2 j run2 h2).1]
      · have hjr : j ≠ rA.instance_id := fun hc => hj (hc.trans hrA)
        have hstep := refresh_congr_at s s t1 (rA :: runs1) runs1 j
          (pollMap_cons_ne hjr) rfl rfl rfl
        exact (refresh_congr_at _ _ t2 runs2 runs2 j rfl hstep.1 hstep.2.1 hstep.2.2).1
    · rfl
    · funext j
      by_cases hj : j = iid
      · subst hj
        rw [(refresh_polled (refreshActiveRuns s t1 (rA :: runs1)) t2 runs2 j run2 h2).2,
          (refresh_polled (refreshActiveRuns s t1 runs1) t2 runs2 j run2 h2).2]
      · have hjr : j ≠ rA.instance_id := fun hc => hj (hc.trans hrA)
        have hstep := refresh_congr_at s s t1 (rA :: runs1) runs1 j
          (pollMap_cons_ne hjr) rfl rfl rfl
        exact (refresh_congr_at _ _ t2 runs2 runs2 j rfl hstep.1 hstep.2.1 hstep.2.2).2.1
    · rfl

/-- Witness for C6: concrete transient gap — `aId` active from the poll at 0,
absent from the empty poll at 1, reported again as `runA2` at 3 (gap 2 < 5). -/
theorem c6_witness :
    ((c2s1.active aId).isSome = true ∧ c2s1.missing aId = none ∧ c2s1.ended aId = none ∧
      pollAvoids aId ([] : List JobRun) = true ∧ pollMap [runA2] aId = some runA2 ∧
      (3 : Int) - 1 < MISSING_GRACE_SECONDS) ∧
    (refreshActiveRuns (refreshActiveRuns c2s1 1 []) 3 [runA2]).active aId = some runA2 := by
  refine ⟨⟨by decide, by decide, by decide, by decide, by decide, by decide⟩, ?_⟩
  exact (c6_transient_gap c2s1 aId 1 3 [] [runA2] runA2 (by decide) (by decide) (by decide)
    (by decide) (by decide) (by decide)).2.2.2.2.2.1

/-- Claim C7: an id moved into `_ended_runs` at monotonic time `T` by an
accepted root-phase ENDED event remains in the combined snapshot through every
sweep at a time within the retention window (`τ - T < ENDED_RETENTION_SECONDS`),
still carrying exactly the snapshot and timestamp it was stored with; a sweep
at any `now` with `now - T ≥ ENDED_RETENTION_SECONDS` evicts it, after which
it is absent from the snapshot and stays absent under further sweeps. -/
theorem c7_retention_window (rm : Option (JobRun → Bool)) (s0 : Store) (jr : JobRun)
    (T now : Int) (ts ts2 : List Int)
    (hacc : matchRejects rm jr = false)
    (hts : ∀ τ ∈ ts, τ - T < ENDED_RETENTION_SECONDS)
    (hnow : ENDED_RETENTION_SECONDS ≤ now - T) :
    (pruneAll (processEvent rm s0 T (Event.phase jr true Stage.ENDED)) ts).ended jr.instance_id
      = some (jr, T) ∧
    idInSnapshot (pruneAll (processEvent rm s0 T (Event.phase jr true Stage.ENDED)) ts)
      jr.instance_id = true ∧
    idInSnapshot (pruneAll (pruneEnded
        (pruneAll (processEvent rm s0 T (Event.phase jr true Stage.ENDED)) ts) now) ts2)
      jr.instance_id = false := by
  have hEv := @processEvent_root_ended rm s0 T (Event.phase jr true Stage.ENDED) jr rfl rfl hacc
  have hkeep := pruneAll_keep ts _ hEv.2.2 hts
  have hgone := prune_evict hkeep hnow
  have hact : (pruneAll (pruneEnded
      (pruneAll (processEvent rm s0 T (Event.phase jr true Stage.ENDED)) ts) now)
        ts2).active jr.instance_id = none := by
    rw [pruneAll_active, prune_active_eq, pruneAll_active]
    exact hEv.1
  refine ⟨hkeep, by simp [idInSnapshot, hkeep], ?_⟩
  simp [idInSnapshot, hact, pruneAll_none ts2 _ hgone]

/-- Witness for C7: `runA` ended at time 0, a sweep at 5 keeps it visible, the
sweep at 10 evicts it from the snapshot. -/
theorem c7_witness :
    (matchRejects none runA = false ∧
      (∀ τ ∈ [(5 : Int)], τ - 0 < ENDED_RETENTION_SECONDS) ∧
      ENDED_RETENTION_SECONDS ≤ (10 : Int) - 0) ∧
    idInSnapshot (pruneAll (processEvent none emptyStore 0
      (Event.phase runA true Stage.ENDED)) [5]) aId = true ∧
    idInSnapshot (pruneAll (pruneEnded (pruneAll (processEvent none emptyStore 0
      (Event.phase runA true Stage.ENDED)) [5]) 10) []) aId = false := by
  refine ⟨⟨by decide, by decide, by decide⟩, ?_, ?_⟩
  · exact (c7_retention_window none emptyStore runA 0 10 [5] []
      (by decide) (by decide) (by decide)).2.1
  · exact (c7_retention_window none emptyStore runA 0 10 [5] []
      (by decide) (by decide) (by decide)).2.2

/-- Claim C10, counterexample: the state reached from the empty store by a
poll reporting `runA`, then the root-phase ENDED event for it, then another
poll whose result still reports the instance (snapshot `runA2`) holds `aId`
in both active and ended at the same instant, so the claimed at-most-one
membership fails on the code. -/
theorem c10_counterexample :
    (c10s3.active aId).isSome = true ∧ (c10s3.ended aId).isSome = true := by
  decide

/-- Claim C10 (amended): the missing-subset-of-active half holds
unconditionally at every state reachable from the empty store by any sequence
of `_process_event`, `_refresh_active_runs` and `_prune_ended` calls (`Reach`,
no restriction on poll results); the at-most-one-of-active-and-ended half
holds at every reachable state provided no poll result ever reports a run
whose id is currently ended-retained (the guard in `ReachG`) — without that
proviso the disjointness half fails, as the counterexample shows. -/
theorem c10_partition_invariant_amended (rm : Option (JobRun → Bool)) (i : InstanceID) :
    (∀ s : Store, Reach rm s →
      ((s.missing i).isSome = true → (s.active i).isSome = true)) ∧
    (∀ s : Store, ReachG rm s → storeInv s i) := by
  constructor
  · rintro s ⟨ops, rfl⟩
    exact missing_sub_active_ops ops emptyStore (by simp [emptyStore])
  · intro s hreach
    induction hreach with
    | empty => exact ⟨by simp [emptyStore], by simp [emptyStore]⟩
    | ev t e _ ih => exact inv_step_ev ih
    | poll t runs _ hg ih => exact inv_step_poll ih hg
    | prune t _ ih => exact inv_step_prune ih

/-- Witness for C10 (amended): the first half applied at the concrete
counterexample state `c10s3` itself — reachable, but outside `ReachG`'s
guard, since its final poll reports the ended-retained `aId` — and the second
half applied at a concrete guard-respecting state (poll reporting `runA` at
0, lifecycle event for `runB` at 1, sweep at 2). -/
theorem c10_witness :
    (Reach none c10s3 ∧
      ((c10s3.missing aId).isSome = true → (c10s3.active aId).isSome = true)) ∧
    (ReachG none (pruneEnded (processEvent none (refreshActiveRuns emptyStore 0 [runA]) 1
        (Event.lifecycle runB)) 2) ∧
      storeInv (pruneEnded (processEvent none (refreshActiveRuns emptyStore 0 [runA]) 1
        (Event.lifecycle runB)) 2) aId) := by
  have hr1 : Reach none c10s3 :=
    ⟨[Op.poll 0 [runA], Op.ev 1 endEvA, Op.poll 3 [runA2]], rfl⟩
  have hr2 : ReachG none (pruneEnded (processEvent none
      (refreshActiveRuns emptyStore 0 [runA]) 1 (Event.lifecycle runB)) 2) :=
    ReachG.prune 2 (ReachG.ev 1 (Event.lifecycle runB)
      (ReachG.poll 0 [runA] ReachG.empty (by decide)))
  exact ⟨⟨hr1, (c10_partition_invariant_amended none aId).1 c10s3 hr1⟩,
    ⟨hr2, (c10_partition_invariant_amended none aId).2 _ hr2⟩⟩
